import Mathlib

/-!
Verification of the concurrent batch-enrichment engine of the EnclaveRunner
CLI (`cmd/common.go`, plus an earlier variant of the user-fetching logic and
the basic-auth header builder in `config`).

The Go code is shallowly embedded as pure Lean functions:

* A remote call outcome is an `ApiResult`: `ok v` models a 200 response whose
  body parsed into `v` (the generated client's `JSON200` field is non-nil
  exactly in this case), `httpErr s` models a received response with status
  `s ≠ 200` (so `JSON200 == nil`), and `netErr m` models a transport error
  (`err != nil` in Go, carrying message `m`).
* The remote service is a function from key to `ApiResult`; one bulk result
  is passed separately.  Concurrency is modelled by an explicit `arrival`
  list: the multiset of messages the per-key goroutines deposit on the
  result channel, in the order the collecting loop receives them.  Theorems
  quantify over every `arrival` that is a permutation of the messages the
  goroutines actually send, which captures every interleaving of response
  latencies.
* Go maps keyed by strings are modelled as functions `String → Option _`
  updated with `fupd`; Go's pre-sized slices written by index are modelled
  as functions `Nat → Option _` read back in index order.
-/

/-- Outcome of one remote call of the generated API client:
`ok` = HTTP 200 with parsed body (`JSON200 != nil`),
`httpErr s` = response received with status `s` but no parsed 200-body,
`netErr m` = transport failure (`err != nil`). -/
inductive ApiResult (α : Type) where
  | ok (val : α)
  | httpErr (status : Nat)
  | netErr (msg : String)
deriving DecidableEq

/-- `true` exactly when the call returned HTTP 200 with a parsed body. -/
def ApiResult.isOk : ApiResult α → Bool
  | .ok _ => true
  | _ => false

/-- One RBAC policy fact `{role, resourceGroup, permission}` as listed by the
bulk call `GetRbacPolicyWithResponse` (`client.RBACPolicy`). -/
structure RBACPolicy where
  Role : String
  ResourceGroup : String
  Permission : String
deriving DecidableEq

/-- `cmd/common.go`: role name with user count and policy count. -/
structure RoleInfo where
  Role : String
  UserCount : Nat
  PolicyCount : Nat
deriving DecidableEq

/-- `cmd/common.go`: resource-group name with endpoint count and policy
count. -/
structure ResourceGroupInfo where
  ResourceGroup : String
  EndpointCount : Nat
  PolicyCount : Nat
deriving DecidableEq

/-- `client.UserResponse`: id, username, display name. -/
structure User where
  Id : String
  Name : String
  DisplayName : String
deriving DecidableEq

/-- Pointwise update of a function-modelled map: Go `m[k] = v`. -/
def fupd {κ β : Type} [DecidableEq κ] (m : κ → β) (k : κ) (v : β) : κ → β :=
  fun x => if x = k then v else m x

/-- Write `val k` into slot `k` for each `k` of `arr`, left to right: the Go
loops that initialise a map from a key list, and the collection loops that
write each received message into its slot. -/
def fillSlots {κ β : Type} [DecidableEq κ] (val : κ → β) (arr : List κ)
    (m : κ → β) : κ → β :=
  arr.foldl (fun (m : κ → β) (k : κ) => fupd m k (val k)) m

/-- The Go loop `for _, b := range items { if info, ok := m[keyOf b]; ok {
bump the entry } }`: one pass over the bulk dataset incrementing the counter
of every existing entry the item's discriminator field points at. -/
def countItems {κ β α : Type} [DecidableEq κ] (keyOf : β → κ) (bump : α → α)
    (items : List β) (m : κ → Option α) : κ → Option α :=
  items.foldl
    (fun (m : κ → Option α) (b : β) =>
      match m (keyOf b) with
      | some a => fupd m (keyOf b) (some (bump a))
      | none => m)
    m

/-- The Go loop `for result := range resultChan { if info, ok := m[result.key];
ok { info.field = result.count } }`: fold the received messages, overwriting
the per-key counter of the addressed entry. -/
def applyArrivals {κ α : Type} [DecidableEq κ] (set : Nat → α → α)
    (arr : List (κ × Nat)) (m : κ → Option α) : κ → Option α :=
  arr.foldl
    (fun (m : κ → Option α) (kc : κ × Nat) =>
      match m kc.1 with
      | some a => fupd m kc.1 (some (set kc.2 a))
      | none => m)
    m

/-- The map initialisation loop `for _, k := range keys { m[k] = mk k }` over
the empty map. -/
def initMap {κ α : Type} [DecidableEq κ] (mk : κ → α) (keys : List κ) :
    κ → Option α :=
  fillSlots (fun k => some (mk k)) keys (fun _ => none)

/-- Count a per-key goroutine of `getRoleInfo` sends for role `r`
(`cmd/common.go` lines 229-238): the length of the 200-body user list, or 0
on any error or non-200 response. -/
def roleUserCount (fetch : String → ApiResult (List String)) (r : String) : Nat :=
  match fetch r with
  | .ok users => users.length
  | _ => 0

/-- Count a per-key goroutine of `getResourceGroupInfo` sends for group `g`
(`cmd/common.go` lines 316-325): the length of the 200-body endpoint list,
or 0 on any error or non-200 response. -/
def rgEndpointCount (fetch : String → ApiResult (List String)) (g : String) : Nat :=
  match fetch g with
  | .ok endpoints => endpoints.length
  | _ => 0

/-- `getRoleInfo` of `cmd/common.go` (lines 188-259).  `bulk` is the outcome
of the single `GetRbacPolicyWithResponse` call; `arrival` is the sequence of
`roleUserCount` messages the per-role goroutines deposit on the channel, in
the order the collecting loop drains them (theorems quantify over every
permutation of the sent multiset).  On bulk failure
(`err != nil || JSON200 == nil`) the function returns early with all-zero
records and never launches the per-key goroutines. -/
def getRoleInfo (bulk : ApiResult (List RBACPolicy))
    (arrival : List (String × Nat)) (roles : List String) : List RoleInfo :=
  match bulk with
  | .ok policies =>
      let m0 := initMap (fun r => RoleInfo.mk r 0 0) roles
      let m1 := countItems (fun p => p.Role)
        (fun a => { a with PolicyCount := a.PolicyCount + 1 }) policies m0
      let m2 := applyArrivals (fun c a => { a with UserCount := c }) arrival m1
      roles.map (fun r => (m2 r).getD (RoleInfo.mk r 0 0))
  | _ => roles.map (fun r => RoleInfo.mk r 0 0)

/-- `getResourceGroupInfo` of `cmd/common.go` (lines 265-346), structurally
identical to `getRoleInfo` with the policy discriminator `p.ResourceGroup`
and the per-key endpoint count (`rgEndpointCount` messages). -/
def getResourceGroupInfo (bulk : ApiResult (List RBACPolicy))
    (arrival : List (String × Nat)) (resourceGroups : List String) :
    List ResourceGroupInfo :=
  match bulk with
  | .ok policies =>
      let m0 := initMap (fun g => ResourceGroupInfo.mk g 0 0) resourceGroups
      let m1 := countItems (fun p => p.ResourceGroup)
        (fun a => { a with PolicyCount := a.PolicyCount + 1 }) policies m0
      let m2 := applyArrivals (fun c a => { a with EndpointCount := c }) arrival m1
      resourceGroups.map (fun g => (m2 g).getD (ResourceGroupInfo.mk g 0 0))
  | _ => resourceGroups.map (fun g => ResourceGroupInfo.mk g 0 0)

/-- The user a `getUsersByIds` goroutine writes into its slot: the parsed
200-body, modelled as `none` when the call did not yield one. -/
def userOf : ApiResult User → Option User
  | .ok u => some u
  | _ => none

/-- `getUsersByIds` of `cmd/common.go` (lines 433-484).  Each goroutine calls
`getUserById`, which runs `handleResponse`: any error or non-2xx response is
`log.Fatal` — the whole process terminates, modelled as `.error ()`.  When
every call succeeds, each goroutine writes its user into the index-addressed
slot of a pre-sized array; `arrival` is the channel drain order of the slot
indices.  (The `errs` aggregation in this version of the source is dead
code: nothing ever appends to it.) -/
def getUsersByIds (fetch : String → ApiResult User)
    (arrival : List Nat) (ids : List String) : Except Unit (List (Option User)) :=
  if ids.isEmpty then .ok []
  else if ids.any (fun id => !(fetch id).isOk) then .error ()
  else .ok ((List.range ids.length).map
    (fillSlots (fun idx => userOf (fetch (ids.getD idx ""))) arrival (fun _ => none)))

/-- `getUserById` of the `unnamed/part_001` variant of the source (lines
155-173): a transport error is returned as-is (`nil, err`), a non-200 status
becomes `failed to get user: status <d>`, a 200 response returns its parsed
body. -/
def getUserById_v1 (fetch : String → ApiResult User) (id : String) :
    Except String User :=
  match fetch id with
  | .netErr m => .error m
  | .httpErr s => .error ("failed to get user: status " ++ toString s)
  | .ok u => .ok u

/-- The aggregated failure message of `unnamed/part_001` `getUsersByIds`
(lines 220-225): `failed to fetch <n> user(s):` followed by one
`\n  [<i>] <err>` line per collected error, numbered from 1 in collection
order. -/
def mkFailMsg (errs : List String) : String :=
  errs.enum.foldl
    (fun acc ie => acc ++ "\n  [" ++ toString (ie.1 + 1) ++ "] " ++ ie.2)
    ("failed to fetch " ++ toString errs.length ++ " user(s):")

/-- `getUsersByIds` of `unnamed/part_001` (lines 176-229).  Each goroutine
sends `{user, err, index}` where `(user, err) = getUserById_v1 fetch ids[idx]`;
`arrival` is the order in which the collecting loop drains the slot indices.
Errors are appended to `errs` in drain order (skipping the slot write);
successes are written into the index-addressed slot.  If any error was
collected the whole batch returns the aggregated error instead of the
sequence.  `v1Step` is one iteration of its collection loop (lines
210-217): the message for slot `idx` either appends its error to `errs`
(skipping the slot write) or writes the user into the slot. -/
def v1Step (fetch : String → ApiResult User) (ids : List String)
    (st : (Nat → Option User) × List String) (idx : Nat) :
    (Nat → Option User) × List String :=
  match getUserById_v1 fetch (ids.getD idx "") with
  | .error e => (st.1, st.2 ++ [e])
  | .ok u => (fupd st.1 idx (some u), st.2)

/-- See `v1Step`: the `unnamed/part_001` batch user fetch. -/
def getUsersByIds_v1 (fetch : String → ApiResult User)
    (arrival : List Nat) (ids : List String) :
    Except String (List (Option User)) :=
  if ids.isEmpty then .ok []
  else
    let st := arrival.foldl (v1Step fetch ids) ((fun _ => none), [])
    if st.2.isEmpty then .ok ((List.range ids.length).map st.1)
    else .error (mkFailMsg st.2)

/-- What `handleResponse` of `cmd/common.go` (lines 66-129) does to the
process: `log.Fatal` (process termination) or fall through.  The message
formatting of the default branch (JSON `error`-field extraction from the
body) is not modelled; every branch of it is fatal either way. -/
inductive HandleOutcome where
  | proceed
  | fatal
deriving DecidableEq

/-- `handleResponse` of `cmd/common.go` (lines 66-129): a transport error or
a nil response is fatal; a 2xx status falls through (logging `successMsg`);
401, 403, 404, 500 and every other status are fatal. -/
def handleResponse (err : Option String) (status : Option Nat) : HandleOutcome :=
  match err with
  | some _ => .fatal
  | none =>
      match status with
      | none => .fatal
      | some s =>
          if 200 ≤ s ∧ s < 300 then .proceed
          else .fatal

/-- A remote call the engine can issue. -/
inductive RemoteCall where
  | bulk
  | perKeyRole (r : String)
  | perKeyRG (g : String)
  | perKeyUser (id : String)
deriving DecidableEq

/-- The remote calls `getRoleInfo` issues, in dispatch order: the bulk
`GetRbacPolicyWithResponse` call is made unconditionally first
(`cmd/common.go` line 192, before the `len` of `roles` is ever consulted);
the per-role goroutines (one `GetRbacRoleWithResponse` each) are launched
only when the bulk call succeeded. -/
def getRoleInfoCalls (bulk : ApiResult (List RBACPolicy))
    (roles : List String) : List RemoteCall :=
  RemoteCall.bulk ::
    (match bulk with
     | .ok _ => roles.map RemoteCall.perKeyRole
     | _ => [])

/-- The remote calls `getUsersByIds` of `cmd/common.go` issues: one
`GetUsersUserWithResponse` per id (the empty-input early return at lines
437-439 issues none). -/
def getUsersByIdsCalls (ids : List String) : List RemoteCall :=
  ids.map RemoteCall.perKeyUser

/-- Timeline events of `getRoleInfo`'s main goroutine. -/
inductive Ev where
  | bulkIssued
  | bulkCompleted
  | perKeyIssued (k : String)
deriving DecidableEq

/-- The event order of `getRoleInfo` (`cmd/common.go` lines 192-244):
`GetRbacPolicyWithResponse` is a synchronous call — it is issued and has
completed before the next statement runs — and the `go` statements that
launch the per-role tasks execute only after that (and only when the bulk
call succeeded). -/
def getRoleInfoEvents (bulk : ApiResult (List RBACPolicy))
    (roles : List String) : List Ev :=
  Ev.bulkIssued :: Ev.bulkCompleted ::
    (match bulk with
     | .ok _ => roles.map Ev.perKeyIssued
     | _ => [])

/-- The RFC 4648 base64 alphabet used by Go's `encoding/base64`
`StdEncoding`. -/
def b64Alphabet : List Char :=
  "ABCDEFGHIJKLMNOPQRSTUVWXYZabcdefghijklmnopqrstuvwxyz0123456789+/".toList

/-- Character for a six-bit group. -/
def b64Char (n : Nat) : Char :=
  b64Alphabet.getD n 'A'

/-- Index of a character in the base64 alphabet, `none` for characters
outside it. -/
def b64Index (c : Char) : List Char → Option Nat
  | [] => none
  | d :: rest => if c = d then some 0 else (b64Index c rest).map (· + 1)

/-- Standard base64 encoding of a byte sequence, modelling Go's
`base64.StdEncoding.EncodeToString` (RFC 4648 §4, `=`-padded): three bytes
become four characters; a two-byte tail becomes three characters and one
`=`; a one-byte tail becomes two characters and two `=`. -/
def b64EncodeBytes : List Nat → List Char
  | [] => []
  | [x] => [b64Char (x / 4), b64Char (x % 4 * 16), '=', '=']
  | [x, y] => [b64Char (x / 4), b64Char (x % 4 * 16 + y / 16),
      b64Char (y % 16 * 4), '=']
  | x :: y :: z :: rest =>
      b64Char (x / 4) :: b64Char (x % 4 * 16 + y / 16) ::
        b64Char (y % 16 * 4 + z / 64) :: b64Char (z % 64) ::
        b64EncodeBytes rest

/-- Standard base64 decoding (RFC 4648 §4), the inverse direction of
`b64EncodeBytes`: four characters at a time, with the two padded forms
accepted only as the final group. -/
def b64DecodeChars : List Char → Option (List Nat)
  | [] => some []
  | a :: b :: c :: d :: rest =>
      if rest = [] ∧ c = '=' ∧ d = '=' then do
        let sa ← b64Index a b64Alphabet
        let sb ← b64Index b b64Alphabet
        some [sa * 4 + sb / 16]
      else if rest = [] ∧ d = '=' then do
        let sa ← b64Index a b64Alphabet
        let sb ← b64Index b b64Alphabet
        let sc ← b64Index c b64Alphabet
        some [sa * 4 + sb / 16, sb % 16 * 16 + sc / 4]
      else do
        let sa ← b64Index a b64Alphabet
        let sb ← b64Index b b64Alphabet
        let sc ← b64Index c b64Alphabet
        let sd ← b64Index d b64Alphabet
        let tail ← b64DecodeChars rest
        some ((sa * 4 + sb / 16) :: (sb % 16 * 16 + sc / 4) ::
          (sc % 4 * 64 + sd) :: tail)
  | _ => none

/-- `BasicAuth.GetAuthHeader` of the `config` package (`unnamed/part_006`
lines 32-36): `"Basic " + base64(username + ":" + password)`.  Go strings
are byte sequences here, modelled as lists of byte values; `58` is the byte
of `:`. -/
def getAuthHeader (username password : List Nat) : List Char :=
  "Basic ".toList ++ b64EncodeBytes (username ++ 58 :: password)

/-- Written from the spec's words, for comparison with the source
(`countMatches` of §4.3 and the invariant of §3): count the bulk records
whose discriminator equals the key, treating the wildcard value `*`
(`Use * for role or resource-group to match all`, cmd/README.md) as
matching every key. -/
def countMatchesSpec (bulk : List RBACPolicy) (key : String) : Nat :=
  bulk.countP (fun p => p.Role == key || p.Role == "*")

/-! Evaluation lemmas for the fold combinators. -/

theorem fillSlots_cons {κ β : Type} [DecidableEq κ] (val : κ → β) (k : κ)
    (rest : List κ) (m : κ → β) :
    fillSlots val (k :: rest) m = fillSlots val rest (fupd m k (val k)) := rfl

theorem fillSlots_eval {κ β : Type} [DecidableEq κ] (val : κ → β)
    (arr : List κ) (m : κ → β) (x : κ) :
    fillSlots val arr m x = if x ∈ arr then val x else m x := by
  induction arr generalizing m with
  | nil => simp [fillSlots]
  | cons k rest ih =>
    rw [fillSlots_cons, ih]
    by_cases hx : x ∈ rest
    · simp [hx]
    · by_cases hk : x = k
      · subst hk
        simp [hx, fupd]
      · simp [hx, hk, fupd]

theorem countItems_cons {κ β α : Type} [DecidableEq κ] (keyOf : β → κ)
    (bump : α → α) (b : β) (rest : List β) (m : κ → Option α) :
    countItems keyOf bump (b :: rest) m
      = countItems keyOf bump rest
          (match m (keyOf b) with
           | some a => fupd m (keyOf b) (some (bump a))
           | none => m) := rfl

theorem countItems_eval {κ β α : Type} [DecidableEq κ] (keyOf : β → κ)
    (bump : α → α) (items : List β) (m : κ → Option α) (x : κ) :
    countItems keyOf bump items m x
      = (m x).map
          (fun a => bump^[items.countP (fun b => decide (keyOf b = x))] a) := by
  induction items generalizing m with
  | nil => simp [countItems]
  | cons b rest ih =>
    rw [countItems_cons, ih]
    cases hm : m (keyOf b) with
    | none =>
      change Option.map _ (m x) = _
      by_cases hbx : x = keyOf b
      · have hmx : m x = none := by rw [hbx]; exact hm
        rw [hmx]
        simp
      · have hd : decide (keyOf b = x) = false :=
          decide_eq_false (fun h => hbx h.symm)
        simp [List.countP_cons, hd]
    | some a =>
      change Option.map _ (fupd m (keyOf b) (some (bump a)) x) = _
      unfold fupd
      by_cases hbx : x = keyOf b
      · have hmx : m x = some a := by rw [hbx]; exact hm
        have hd : decide (keyOf b = x) = true := decide_eq_true hbx.symm
        rw [if_pos hbx, hmx]
        simp [List.countP_cons, hd, Function.iterate_succ_apply]
      · have hd : decide (keyOf b = x) = false :=
          decide_eq_false (fun h => hbx h.symm)
        rw [if_neg hbx]
        simp [List.countP_cons, hd]

theorem applyArrivals_cons {κ α : Type} [DecidableEq κ] (set : Nat → α → α)
    (kc : κ × Nat) (rest : List (κ × Nat)) (m : κ → Option α) :
    applyArrivals set (kc :: rest) m
      = applyArrivals set rest
          (match m kc.1 with
           | some a => fupd m kc.1 (some (set kc.2 a))
           | none => m) := rfl

theorem applyArrivals_eval {κ α : Type} [DecidableEq κ] (set : Nat → α → α)
    (f : κ → Nat) (arr : List (κ × Nat)) (m : κ → Option α) (x : κ)
    (hidem : ∀ c a, set c (set c a) = set c a)
    (hval : ∀ p ∈ arr, p.2 = f p.1) :
    applyArrivals set arr m x
      = if x ∈ arr.map Prod.fst then (m x).map (fun a => set (f x) a)
        else m x := by
  induction arr generalizing m with
  | nil => simp [applyArrivals]
  | cons kc rest ih =>
    obtain ⟨k, c⟩ := kc
    have hc : c = f k := hval (k, c) (List.mem_cons_self _ _)
    rw [applyArrivals_cons,
      ih _ (fun p hp => hval p (List.mem_cons_of_mem _ hp))]
    by_cases hk : x = k
    · subst hk
      cases hm : m x with
      | none => simp [hm]
      | some a =>
        by_cases hx : x ∈ rest.map Prod.fst
        · simp [hx, hm, fupd, hc, hidem]
        · simp [hx, hm, fupd, hc]
    · have hm' :
        (match m k with
         | some a => fupd m k (some (set c a))
         | none => m) x = m x := by
        cases m k with
        | none => rfl
        | some a => simp [fupd, hk]
      by_cases hx : x ∈ rest.map Prod.fst
      · simp [hx, hm', List.mem_cons, hk]
      · simp [hx, hm', List.mem_cons, hk]

/-! Closed forms of the enrichment operations. -/

/-- The record `getRoleInfo` produces for role `r` when the bulk call
succeeded with `ps`: the r-keyed per-key user count and the number of
policies whose `Role` field is exactly `r`. -/
def enrichedRole (ps : List RBACPolicy)
    (fetch : String → ApiResult (List String)) (r : String) : RoleInfo :=
  ⟨r, roleUserCount fetch r, ps.countP (fun p => decide (p.Role = r))⟩

/-- The record `getResourceGroupInfo` produces for group `g` when the bulk
call succeeded with `ps`. -/
def enrichedRG (ps : List RBACPolicy)
    (fetch : String → ApiResult (List String)) (g : String) : ResourceGroupInfo :=
  ⟨g, rgEndpointCount fetch g, ps.countP (fun p => decide (p.ResourceGroup = g))⟩

theorem bumpPolicy_iterate (n : Nat) (r : String) (u p : Nat) :
    (fun a : RoleInfo => { a with PolicyCount := a.PolicyCount + 1 })^[n]
      ⟨r, u, p⟩ = ⟨r, u, p + n⟩ := by
  induction n generalizing p with
  | zero => rfl
  | succ n ih =>
    rw [Function.iterate_succ_apply]
    show _^[n] (⟨r, u, p + 1⟩ : RoleInfo) = _
    rw [ih]
    simp [RoleInfo.mk.injEq]
    omega

theorem bumpPolicyRG_iterate (n : Nat) (g : String) (e p : Nat) :
    (fun a : ResourceGroupInfo => { a with PolicyCount := a.PolicyCount + 1 })^[n]
      ⟨g, e, p⟩ = ⟨g, e, p + n⟩ := by
  induction n generalizing p with
  | zero => rfl
  | succ n ih =>
    rw [Function.iterate_succ_apply]
    show _^[n] (⟨g, e, p + 1⟩ : ResourceGroupInfo) = _
    rw [ih]
    simp [ResourceGroupInfo.mk.injEq]
    omega

theorem perm_keys_of_sent (arrival : List (String × Nat))
    (keys : List String) (f : String → Nat)
    (hA : arrival.Perm (keys.map (fun k => (k, f k)))) :
    (arrival.map Prod.fst).Perm keys := by
  have h := hA.map Prod.fst
  rwa [List.map_map, show (Prod.fst ∘ fun k => (k, f k)) = id from rfl,
    List.map_id] at h

theorem sent_val_eq (arrival : List (String × Nat))
    (keys : List String) (f : String → Nat)
    (hA : arrival.Perm (keys.map (fun k => (k, f k)))) :
    ∀ p ∈ arrival, p.2 = f p.1 := by
  intro p hp
  have := hA.mem_iff.mp hp
  obtain ⟨k, _, hk⟩ := List.mem_map.mp this
  rw [← hk]

theorem roleEntry_eval (ps : List RBACPolicy)
    (fetch : String → ApiResult (List String))
    (arrival : List (String × Nat)) (roles : List String) (r : String)
    (hA : arrival.Perm (roles.map (fun k => (k, roleUserCount fetch k))))
    (hr : r ∈ roles) :
    applyArrivals (fun c a => { a with UserCount := c }) arrival
      (countItems (fun p => p.Role)
        (fun a => { a with PolicyCount := a.PolicyCount + 1 }) ps
        (initMap (fun k => RoleInfo.mk k 0 0) roles)) r
      = some (enrichedRole ps fetch r) := by
  rw [applyArrivals_eval (fun c (a : RoleInfo) => { a with UserCount := c })
      (roleUserCount fetch) arrival _ r (fun c a => rfl)
      (sent_val_eq arrival roles _ hA)]
  have hmem : r ∈ arrival.map Prod.fst :=
    (perm_keys_of_sent arrival roles _ hA).mem_iff.mpr hr
  rw [if_pos hmem, countItems_eval, initMap, fillSlots_eval, if_pos hr]
  simp only [Option.map_some']
  rw [bumpPolicy_iterate]
  simp [enrichedRole]

theorem rgEntry_eval (ps : List RBACPolicy)
    (fetch : String → ApiResult (List String))
    (arrival : List (String × Nat)) (groups : List String) (g : String)
    (hA : arrival.Perm (groups.map (fun k => (k, rgEndpointCount fetch k))))
    (hg : g ∈ groups) :
    applyArrivals (fun c a => { a with EndpointCount := c }) arrival
      (countItems (fun p => p.ResourceGroup)
        (fun a => { a with PolicyCount := a.PolicyCount + 1 }) ps
        (initMap (fun k => ResourceGroupInfo.mk k 0 0) groups)) g
      = some (enrichedRG ps fetch g) := by
  rw [applyArrivals_eval
      (fun c (a : ResourceGroupInfo) => { a with EndpointCount := c })
      (rgEndpointCount fetch) arrival _ g (fun c a => rfl)
      (sent_val_eq arrival groups _ hA)]
  have hmem : g ∈ arrival.map Prod.fst :=
    (perm_keys_of_sent arrival groups _ hA).mem_iff.mpr hg
  rw [if_pos hmem, countItems_eval, initMap, fillSlots_eval, if_pos hg]
  simp only [Option.map_some']
  rw [bumpPolicyRG_iterate]
  simp [enrichedRG]

theorem getRoleInfo_closed (ps : List RBACPolicy)
    (fetch : String → ApiResult (List String))
    (arrival : List (String × Nat)) (roles : List String)
    (hA : arrival.Perm (roles.map (fun k => (k, roleUserCount fetch k)))) :
    getRoleInfo (.ok ps) arrival roles = roles.map (enrichedRole ps fetch) := by
  show roles.map _ = _
  apply List.map_congr_left
  intro r hr
  rw [roleEntry_eval ps fetch arrival roles r hA hr]
  rfl

theorem getResourceGroupInfo_closed (ps : List RBACPolicy)
    (fetch : String → ApiResult (List String))
    (arrival : List (String × Nat)) (groups : List String)
    (hA : arrival.Perm (groups.map (fun k => (k, rgEndpointCount fetch k)))) :
    getResourceGroupInfo (.ok ps) arrival groups
      = groups.map (enrichedRG ps fetch) := by
  show groups.map _ = _
  apply List.map_congr_left
  intro g hg
  rw [rgEntry_eval ps fetch arrival groups g hA hg]
  rfl

theorem rangeMap_getD {α β : Type} (l : List α) (d : α) (g : α → β) :
    (List.range l.length).map (fun i => g (l.getD i d)) = l.map g := by
  apply List.ext_getElem?
  intro i
  rw [List.getElem?_map, List.getElem?_map]
  by_cases hi : i < l.length
  · rw [List.getElem?_range hi, List.getElem?_eq_getElem hi]
    simp [List.getD_eq_getElem?_getD, List.getElem?_eq_getElem hi]
  · have h1 : (List.range l.length)[i]? = none := by
      rw [List.getElem?_eq_none]
      simpa using Nat.le_of_not_lt hi
    have h2 : l[i]? = none := List.getElem?_eq_none (Nat.le_of_not_lt hi)
    rw [h1, h2]
    rfl

theorem usersSlots_eval (fetch : String → ApiResult User)
    (uarr : List Nat) (ids : List String)
    (hU : uarr.Perm (List.range ids.length)) :
    (List.range ids.length).map
      (fillSlots (fun idx => userOf (fetch (ids.getD idx ""))) uarr
        (fun _ => none))
      = ids.map (fun id => userOf (fetch id)) := by
  rw [← rangeMap_getD ids "" (fun id => userOf (fetch id))]
  apply List.map_congr_left
  intro i hi
  rw [fillSlots_eval]
  rw [if_pos (hU.mem_iff.mpr hi)]

theorem getUsersByIds_eval_ok (fetch : String → ApiResult User)
    (uarr : List Nat) (ids : List String)
    (hU : uarr.Perm (List.range ids.length))
    (hok : ∀ id ∈ ids, (fetch id).isOk) :
    getUsersByIds fetch uarr ids
      = .ok (ids.map (fun id => userOf (fetch id))) := by
  unfold getUsersByIds
  by_cases he : ids.isEmpty
  · rw [if_pos he, List.isEmpty_iff.mp he]
    rfl
  · rw [if_neg he, if_neg ?_, usersSlots_eval fetch uarr ids hU]
    intro hany
    obtain ⟨id, hid, hfail⟩ := List.any_eq_true.mp hany
    rw [hok id hid] at hfail
    simp at hfail

theorem getUsersByIds_fail (fetch : String → ApiResult User)
    (uarr : List Nat) (ids : List String) (id : String)
    (hid : id ∈ ids) (hfail : ¬(fetch id).isOk) :
    getUsersByIds fetch uarr ids = .error () := by
  unfold getUsersByIds
  rw [if_neg ?empty, if_pos ?fails]
  case empty =>
    intro he
    rw [List.isEmpty_iff.mp he] at hid
    exact absurd hid (List.not_mem_nil id)
  case fails =>
    refine List.any_eq_true.mpr ⟨id, hid, ?_⟩
    simpa using hfail

theorem v1_errs_mono (fetch : String → ApiResult User) (ids : List String)
    (arr : List Nat) (st : (Nat → Option User) × List String) :
    st.2.length ≤ (arr.foldl (v1Step fetch ids) st).2.length := by
  induction arr generalizing st with
  | nil => exact Nat.le_refl _
  | cons idx rest ih =>
    rw [List.foldl_cons]
    refine Nat.le_trans ?_ (ih (v1Step fetch ids st idx))
    unfold v1Step
    cases getUserById_v1 fetch (ids.getD idx "") with
    | error e => simp
    | ok u => exact Nat.le_refl _

theorem v1_errs_nonempty (fetch : String → ApiResult User) (ids : List String)
    (arr : List Nat) (st : (Nat → Option User) × List String) (idx : Nat)
    (hmem : idx ∈ arr) (e : String)
    (hfail : getUserById_v1 fetch (ids.getD idx "") = .error e) :
    (arr.foldl (v1Step fetch ids) st).2 ≠ [] := by
  induction arr generalizing st with
  | nil => exact absurd hmem (List.not_mem_nil idx)
  | cons a rest ih =>
    rw [List.foldl_cons]
    rcases List.mem_cons.mp hmem with ha | ha
    · subst ha
      have hstep : (v1Step fetch ids st idx).2 = st.2 ++ [e] := by
        unfold v1Step
        rw [hfail]
      intro hnil
      have hlen := v1_errs_mono fetch ids rest (v1Step fetch ids st idx)
      rw [hstep, hnil] at hlen
      simp at hlen
    · exact ih (v1Step fetch ids st a) ha

theorem getUsersByIds_v1_aborts (fetch : String → ApiResult User)
    (uarr : List Nat) (ids : List String) (id : String)
    (hid : id ∈ ids) (hU : uarr.Perm (List.range ids.length))
    (e : String) (hfail : getUserById_v1 fetch id = .error e) :
    ∃ msg, getUsersByIds_v1 fetch uarr ids = .error msg := by
  obtain ⟨i, hi, hgi⟩ := List.mem_iff_getElem.mp hid
  have hgd : ids.getD i "" = id := by
    rw [List.getD_eq_getElem?_getD, List.getElem?_eq_getElem hi, hgi]
    rfl
  have hmem : i ∈ uarr := hU.mem_iff.mpr (List.mem_range.mpr hi)
  have hne :
      (uarr.foldl (v1Step fetch ids) ((fun _ => none), [])).2 ≠ [] := by
    apply v1_errs_nonempty fetch ids uarr _ i hmem e
    rw [hgd]
    exact hfail
  unfold getUsersByIds_v1
  rw [if_neg ?empty, if_neg ?errs]
  · exact ⟨_, rfl⟩
  case empty =>
    intro he
    rw [List.isEmpty_iff.mp he] at hid
    exact absurd hid (List.not_mem_nil id)
  case errs =>
    intro he
    exact hne (List.isEmpty_iff.mp he)

/-! Base64 round-trip. -/

theorem b64Index_alphabet : ∀ n < 64,
    b64Index (b64Char n) b64Alphabet = some n := by decide

theorem b64Char_ne_pad : ∀ n < 64, b64Char n ≠ '=' := by decide

theorem b64_roundtrip : ∀ (bs : List Nat), (∀ x ∈ bs, x < 256) →
    b64DecodeChars (b64EncodeBytes bs) = some bs
  | [], _ => rfl
  | [x], h => by
    have hx : x < 256 := h x (by simp)
    show b64DecodeChars
      [b64Char (x / 4), b64Char (x % 4 * 16), '=', '='] = some [x]
    rw [b64DecodeChars]
    rw [if_pos ⟨rfl, rfl, rfl⟩]
    rw [b64Index_alphabet (x / 4) (by omega),
      b64Index_alphabet (x % 4 * 16) (by omega)]
    show some [x / 4 * 4 + x % 4 * 16 / 16] = some [x]
    have : x / 4 * 4 + x % 4 * 16 / 16 = x := by omega
    rw [this]
  | [x, y], h => by
    have hx : x < 256 := h x (by simp)
    have hy : y < 256 := h y (by simp)
    show b64DecodeChars [b64Char (x / 4), b64Char (x % 4 * 16 + y / 16),
      b64Char (y % 16 * 4), '='] = some [x, y]
    rw [b64DecodeChars]
    rw [if_neg (fun hc => b64Char_ne_pad (y % 16 * 4) (by omega) hc.2.1)]
    rw [if_pos ⟨rfl, rfl⟩]
    rw [b64Index_alphabet (x / 4) (by omega),
      b64Index_alphabet (x % 4 * 16 + y / 16) (by omega),
      b64Index_alphabet (y % 16 * 4) (by omega)]
    show some [x / 4 * 4 + (x % 4 * 16 + y / 16) / 16,
      (x % 4 * 16 + y / 16) % 16 * 16 + y % 16 * 4 / 4] = some [x, y]
    have e1 : x / 4 * 4 + (x % 4 * 16 + y / 16) / 16 = x := by omega
    have e2 : (x % 4 * 16 + y / 16) % 16 * 16 + y % 16 * 4 / 4 = y := by omega
    rw [e1, e2]
  | x :: y :: z :: rest, h => by
    have hx : x < 256 := h x (by simp)
    have hy : y < 256 := h y (by simp)
    have hz : z < 256 := h z (by simp)
    have hrest : ∀ w ∈ rest, w < 256 := fun w hw => h w (by simp [hw])
    have ih := b64_roundtrip rest hrest
    show b64DecodeChars (b64Char (x / 4) :: b64Char (x % 4 * 16 + y / 16) ::
      b64Char (y % 16 * 4 + z / 64) :: b64Char (z % 64) ::
      b64EncodeBytes rest) = some (x :: y :: z :: rest)
    rw [b64DecodeChars]
    rw [if_neg (fun hc => b64Char_ne_pad (y % 16 * 4 + z / 64) (by omega) hc.2.1)]
    rw [if_neg (fun hc => b64Char_ne_pad (z % 64) (by omega) hc.2)]
    rw [b64Index_alphabet (x / 4) (by omega),
      b64Index_alphabet (x % 4 * 16 + y / 16) (by omega),
      b64Index_alphabet (y % 16 * 4 + z / 64) (by omega),
      b64Index_alphabet (z % 64) (by omega)]
    show (b64DecodeChars (b64EncodeBytes rest)).bind _ = _
    rw [ih]
    show some ((x / 4 * 4 + (x % 4 * 16 + y / 16) / 16) ::
      ((x % 4 * 16 + y / 16) % 16 * 16 + (y % 16 * 4 + z / 64) / 4) ::
      ((y % 16 * 4 + z / 64) % 4 * 64 + z % 64) :: rest)
      = some (x :: y :: z :: rest)
    have e1 : x / 4 * 4 + (x % 4 * 16 + y / 16) / 16 = x := by omega
    have e2 : (x % 4 * 16 + y / 16) % 16 * 16 + (y % 16 * 4 + z / 64) / 4 = y := by
      omega
    have e3 : (y % 16 * 4 + z / 64) % 4 * 64 + z % 64 = z := by omega
    rw [e1, e2, e3]

/-! Claim theorems. -/

/-- C1: for every input key sequence (any length, duplicates allowed) the
batch-enrichment operations return exactly one enriched record per input
key, and the record at position `i` carries key `keys[i]`: `getRoleInfo`
and `getResourceGroupInfo` return one record per key whose key field at
position `i` is `keys[i]` (for every bulk outcome and every channel-drain
order of the per-key messages), and `getUsersByIds` returns one slot per
id, position `i` holding the user fetched for `ids[i]`, which carries id
`ids[i]` whenever the remote service returns id-faithful records. -/
theorem c1_enrichment_length_and_keys
    (bulk : ApiResult (List RBACPolicy))
    (fetch : String → ApiResult (List String))
    (arrival : List (String × Nat)) (roles : List String)
    (arrG : List (String × Nat)) (groups : List String)
    (ufetch : String → ApiResult User) (uarr : List Nat) (ids : List String)
    (hA : arrival.Perm (roles.map (fun k => (k, roleUserCount fetch k))))
    (hG : arrG.Perm (groups.map (fun k => (k, rgEndpointCount fetch k))))
    (hU : uarr.Perm (List.range ids.length))
    (hok : ∀ id ∈ ids, (ufetch id).isOk)
    (hfid : ∀ id u, ufetch id = .ok u → u.Id = id) :
    (getRoleInfo bulk arrival roles).length = roles.length
    ∧ (∀ i : Nat, ((getRoleInfo bulk arrival roles)[i]?).map RoleInfo.Role
        = roles[i]?)
    ∧ (getResourceGroupInfo bulk arrG groups).length = groups.length
    ∧ (∀ i : Nat,
        ((getResourceGroupInfo bulk arrG groups)[i]?).map
          ResourceGroupInfo.ResourceGroup = groups[i]?)
    ∧ ∃ us, getUsersByIds ufetch uarr ids = .ok us
        ∧ us.length = ids.length
        ∧ (∀ i : Nat, us[i]? = (ids[i]?).map (fun id => userOf (ufetch id)))
        ∧ (∀ i : Nat, (us[i]?).map (fun s => s.map User.Id)
            = (ids[i]?).map (fun id => some id)) := by
  obtain ⟨f, hf, hfr⟩ :
      ∃ f : String → RoleInfo,
        getRoleInfo bulk arrival roles = roles.map f ∧ ∀ r, (f r).Role = r := by
    cases bulk with
    | ok ps =>
        exact ⟨enrichedRole ps fetch,
          getRoleInfo_closed ps fetch arrival roles hA, fun r => rfl⟩
    | httpErr s => exact ⟨fun r => ⟨r, 0, 0⟩, rfl, fun r => rfl⟩
    | netErr m => exact ⟨fun r => ⟨r, 0, 0⟩, rfl, fun r => rfl⟩
  obtain ⟨fg, hfg, hfgr⟩ :
      ∃ fg : String → ResourceGroupInfo,
        getResourceGroupInfo bulk arrG groups = groups.map fg
          ∧ ∀ g, (fg g).ResourceGroup = g := by
    cases bulk with
    | ok ps =>
        exact ⟨enrichedRG ps fetch,
          getResourceGroupInfo_closed ps fetch arrG groups hG, fun g => rfl⟩
    | httpErr s => exact ⟨fun g => ⟨g, 0, 0⟩, rfl, fun g => rfl⟩
    | netErr m => exact ⟨fun g => ⟨g, 0, 0⟩, rfl, fun g => rfl⟩
  refine ⟨?_, ?_, ?_, ?_, ids.map (fun id => userOf (ufetch id)),
    getUsersByIds_eval_ok ufetch uarr ids hU hok, List.length_map ids _,
    ?_, ?_⟩
  · rw [hf, List.length_map]
  · intro i
    rw [hf, List.getElem?_map, Option.map_map,
      show (RoleInfo.Role ∘ f) = (fun r => r) from funext hfr, Option.map_id']
  · rw [hfg, List.length_map]
  · intro i
    rw [hfg, List.getElem?_map, Option.map_map,
      show (ResourceGroupInfo.ResourceGroup ∘ fg) = (fun g => g) from
        funext hfgr, Option.map_id']
  · intro i
    rw [List.getElem?_map]
  · intro i
    rw [List.getElem?_map, Option.map_map]
    cases hgi : ids[i]? with
    | none => rfl
    | some id =>
        have hid : id ∈ ids := by
          obtain ⟨hlt, he⟩ := List.getElem?_eq_some.mp hgi
          exact he ▸ List.getElem_mem hlt
        have := hok id hid
        cases hu : ufetch id with
        | ok u =>
            simp only [Option.map_some', Function.comp_apply, hu, userOf]
            rw [hfid id u hu]
        | httpErr s => rw [hu] at this; simp [ApiResult.isOk] at this
        | netErr m => rw [hu] at this; simp [ApiResult.isOk] at this

/-- Witness for C1 at a concrete input: two roles with one policy, one
resource group, and one user id. -/
theorem c1_enrichment_length_and_keys_witness :
    (getRoleInfo (.ok [⟨"admin", "rg1", "GET"⟩])
        [("editor", 0), ("admin", 1)] ["admin", "editor"]).length = 2
    ∧ (∀ i : Nat,
        ((getRoleInfo (.ok [⟨"admin", "rg1", "GET"⟩])
            [("editor", 0), ("admin", 1)] ["admin", "editor"])[i]?).map
          RoleInfo.Role = (["admin", "editor"])[i]?) := by
  have h := c1_enrichment_length_and_keys
    (.ok [⟨"admin", "rg1", "GET"⟩])
    (fun r => if r = "admin" then .ok ["u1"] else .httpErr 404)
    [("editor", 0), ("admin", 1)] ["admin", "editor"]
    [("rg1", 0)] ["rg1"]
    (fun id => .ok ⟨id, "n", "d"⟩) [0] ["u1"]
    (by decide) (by decide) (by decide) (by decide)
    (fun id u hu => by cases hu; rfl)
  exact ⟨h.1, h.2.1⟩

/-- C5: the returned sequences are invariant under arbitrary permutation of
the completion order of the concurrent per-key calls: any two channel-drain
orders of the same sent message multiset produce identical output, for
`getRoleInfo` and for `getUsersByIds`. -/
theorem c5_order_invariance
    (bulk : ApiResult (List RBACPolicy))
    (fetch : String → ApiResult (List String))
    (a1 a2 : List (String × Nat)) (roles : List String)
    (ufetch : String → ApiResult User) (u1 u2 : List Nat) (ids : List String)
    (h1 : a1.Perm (roles.map (fun k => (k, roleUserCount fetch k))))
    (h2 : a2.Perm (roles.map (fun k => (k, roleUserCount fetch k))))
    (h3 : u1.Perm (List.range ids.length))
    (h4 : u2.Perm (List.range ids.length)) :
    getRoleInfo bulk a1 roles = getRoleInfo bulk a2 roles
    ∧ getUsersByIds ufetch u1 ids = getUsersByIds ufetch u2 ids := by
  constructor
  · cases bulk with
    | ok ps =>
        rw [getRoleInfo_closed ps fetch a1 roles h1,
          getRoleInfo_closed ps fetch a2 roles h2]
    | httpErr s => rfl
    | netErr m => rfl
  · unfold getUsersByIds
    by_cases he : ids.isEmpty
    · rw [if_pos he, if_pos he]
    · rw [if_neg he, if_neg he]
      by_cases hfl : ids.any (fun id => !(ufetch id).isOk) = true
      · rw [if_pos hfl, if_pos hfl]
      · rw [if_neg hfl, if_neg hfl, usersSlots_eval ufetch u1 ids h3,
          usersSlots_eval ufetch u2 ids h4]

/-- Witness for C5: two reversed drain orders at a concrete input give the
same output. -/
theorem c5_order_invariance_witness :
    getRoleInfo (.ok []) [("a", 1), ("b", 0)] ["a", "b"]
      = getRoleInfo (.ok []) [("b", 0), ("a", 1)] ["a", "b"]
    ∧ getUsersByIds (fun id => .ok ⟨id, "n", "d"⟩) [0, 1] ["x", "y"]
      = getUsersByIds (fun id => .ok ⟨id, "n", "d"⟩) [1, 0] ["x", "y"] :=
  c5_order_invariance (.ok [])
    (fun r => if r = "a" then .ok ["u1"] else .httpErr 404)
    [("a", 1), ("b", 0)] [("b", 0), ("a", 1)] ["a", "b"]
    (fun id => .ok ⟨id, "n", "d"⟩) [0, 1] [1, 0] ["x", "y"]
    (by decide) (by decide) (by decide) (by decide)

/-- C6: duplicate keys yield an entry at each of their positions, and each
position's record is exactly the enrichment of its own key (its own
per-key count and its own bulk-derived count). -/
theorem c6_duplicates_positional
    (ps : List RBACPolicy) (fetch : String → ApiResult (List String))
    (arrival : List (String × Nat)) (roles : List String) (i j : Nat)
    (hA : arrival.Perm (roles.map (fun k => (k, roleUserCount fetch k))))
    (hi : i < roles.length) (hj : j < roles.length)
    (_hdup : roles[i] = roles[j]) :
    (getRoleInfo (.ok ps) arrival roles)[i]?
        = some (enrichedRole ps fetch roles[i])
    ∧ (getRoleInfo (.ok ps) arrival roles)[j]?
        = some (enrichedRole ps fetch roles[j]) := by
  rw [getRoleInfo_closed ps fetch arrival roles hA]
  constructor
  · rw [List.getElem?_map, List.getElem?_eq_getElem hi]
    rfl
  · rw [List.getElem?_map, List.getElem?_eq_getElem hj]
    rfl

/-- Witness for C6: the key `"a"` appears at positions 0 and 2; both
positions hold its independently computed enrichment. -/
theorem c6_duplicates_positional_witness :
    (getRoleInfo (.ok [⟨"a", "rg", "GET"⟩])
        [("a", 3), ("b", 1), ("a", 3)] ["a", "b", "a"])[0]?
      = some (enrichedRole [⟨"a", "rg", "GET"⟩]
          (fun r => if r = "a" then .ok ["u1", "u2", "u3"] else .ok ["v"]) "a")
    ∧ (getRoleInfo (.ok [⟨"a", "rg", "GET"⟩])
        [("a", 3), ("b", 1), ("a", 3)] ["a", "b", "a"])[2]?
      = some (enrichedRole [⟨"a", "rg", "GET"⟩]
          (fun r => if r = "a" then .ok ["u1", "u2", "u3"] else .ok ["v"]) "a") :=
  c6_duplicates_positional [⟨"a", "rg", "GET"⟩]
    (fun r => if r = "a" then .ok ["u1", "u2", "u3"] else .ok ["v"])
    [("a", 3), ("b", 1), ("a", 3)] ["a", "b", "a"] 0 2
    (by decide) (by decide) (by decide) (by decide)

/-- C2 fails on the code: with the bulk fetch failing (here a 500) and the
per-key call for `"a"` able to return one user, `getRoleInfo` returns the
all-zero record — the per-key-derived `UserCount` is 0, not the normally
computed 1, because the per-key phase is skipped. -/
theorem c2_bulk_failure_counterexample :
    getRoleInfo (.httpErr 500) [] ["a"] = [⟨"a", 0, 0⟩]
    ∧ roleUserCount (fun _ => .ok ["u1"]) "a" = 1
    ∧ ¬ ((getRoleInfo (.httpErr 500) [] ["a"]).map RoleInfo.UserCount
        = [roleUserCount (fun _ => .ok ["u1"]) "a"]) := by decide

/-- C2 amended: if the bulk fetch fails, `getRoleInfo` and
`getResourceGroupInfo` return early with every count zero — the bulk-derived
counts are 0 and the per-key phase is skipped entirely (so the
per-key-derived counts are 0 as well, whatever the per-key calls would have
returned). -/
theorem c2_bulk_failure_all_zero
    (bulk : ApiResult (List RBACPolicy))
    (arrival arrG : List (String × Nat))
    (roles groups : List String)
    (hfail : ¬ bulk.isOk = true) :
    getRoleInfo bulk arrival roles = roles.map (fun r => ⟨r, 0, 0⟩)
    ∧ getResourceGroupInfo bulk arrG groups
        = groups.map (fun g => ⟨g, 0, 0⟩) := by
  cases bulk with
  | ok ps => exact absurd rfl hfail
  | httpErr s => exact ⟨rfl, rfl⟩
  | netErr m => exact ⟨rfl, rfl⟩

/-- Witness for the amended C2 at a concrete failed bulk fetch. -/
theorem c2_bulk_failure_all_zero_witness :
    getRoleInfo (.netErr "down") [("a", 7)] ["a"] = [⟨"a", 0, 0⟩]
    ∧ getResourceGroupInfo (.netErr "down") [] ["g"] = [⟨"g", 0, 0⟩] :=
  c2_bulk_failure_all_zero (.netErr "down") [("a", 7)] [] ["a"] ["g"]
    (by decide)

/-- C3 fails on the code: in the `unnamed/part_001` `getUsersByIds`, a
single failing per-key fetch aborts the batch — the error is recorded and
aggregated, but the function returns the aggregated error instead of the
complete ordered sequence. -/
theorem c3_per_key_failure_counterexample :
    getUsersByIds_v1 (fun _ => .netErr "boom") [0] ["u1"]
      = .error "failed to fetch 1 user(s):\n  [1] boom"
    ∧ (getUsersByIds_v1 (fun _ => .netErr "boom") [0] ["u1"]).isOk = false :=
  ⟨rfl, rfl⟩

/-- C3 amended: the two aggregation variants diverge.  In `getRoleInfo` a
failing per-key fetch does not abort the batch: its slot degrades to count
0 and the complete ordered sequence is returned — but nothing is recorded,
the error is silently dropped (the function returns only the list).  In the
`unnamed/part_001` `getUsersByIds`, per-key errors are recorded and
aggregated into a report, but any failure aborts the batch: the aggregated
error is returned instead of the sequence. -/
theorem c3_per_key_failure_behaviour
    (ps : List RBACPolicy) (fetch : String → ApiResult (List String))
    (arrival : List (String × Nat)) (roles : List String) (k : String)
    (hA : arrival.Perm (roles.map (fun r => (r, roleUserCount fetch r))))
    (_hk : k ∈ roles) (hfail : ∀ v, fetch k ≠ .ok v)
    (ufetch : String → ApiResult User) (uarr : List Nat) (ids : List String)
    (id : String) (e : String)
    (hid : id ∈ ids) (hU : uarr.Perm (List.range ids.length))
    (huf : getUserById_v1 ufetch id = .error e) :
    getRoleInfo (.ok ps) arrival roles = roles.map (enrichedRole ps fetch)
    ∧ roleUserCount fetch k = 0
    ∧ (getRoleInfo (.ok ps) arrival roles).length = roles.length
    ∧ ∃ msg, getUsersByIds_v1 ufetch uarr ids = .error msg := by
  refine ⟨getRoleInfo_closed ps fetch arrival roles hA, ?_, ?_,
    getUsersByIds_v1_aborts ufetch uarr ids id hid hU e huf⟩
  · unfold roleUserCount
    cases hf : fetch k with
    | ok v => exact absurd hf (hfail v)
    | httpErr s => rfl
    | netErr m => rfl
  · rw [getRoleInfo_closed ps fetch arrival roles hA, List.length_map]

/-- Witness for the amended C3: role `"b"` fails with a 500 yet the full
two-record sequence is returned with its slot zeroed, while the part_001
user fetch aborts. -/
theorem c3_per_key_failure_behaviour_witness :
    getRoleInfo (.ok []) [("a", 1), ("b", 0)] ["a", "b"]
      = ["a", "b"].map (enrichedRole []
          (fun r => if r = "a" then .ok ["u1"] else .httpErr 500))
    ∧ roleUserCount
        (fun r => if r = "a" then .ok ["u1"] else .httpErr 500) "b" = 0
    ∧ (getRoleInfo (.ok []) [("a", 1), ("b", 0)] ["a", "b"]).length = 2
    ∧ ∃ msg, getUsersByIds_v1 (fun _ => .netErr "boom") [0] ["u1"]
        = .error msg :=
  c3_per_key_failure_behaviour []
    (fun r => if r = "a" then .ok ["u1"] else .httpErr 500)
    [("a", 1), ("b", 0)] ["a", "b"] "b"
    (by decide) (by decide) (fun v h => by simp at h)
    (fun _ => .netErr "boom") [0] ["u1"] "u1" "boom"
    (by decide) (by decide) rfl

/-- C4 fails on the code: a policy whose role discriminator is the wildcard
`"*"` is not counted for key `"admin"` — the code counts only exact
matches, while the spec's `countMatches` would count 1. -/
theorem c4_wildcard_counterexample :
    getRoleInfo (.ok [⟨"*", "rg1", "GET"⟩]) [("admin", 0)] ["admin"]
      = [⟨"admin", 0, 0⟩]
    ∧ countMatchesSpec [⟨"*", "rg1", "GET"⟩] "admin" = 1
    ∧ ¬ ((getRoleInfo (.ok [⟨"*", "rg1", "GET"⟩]) [("admin", 0)]
          ["admin"]).map RoleInfo.PolicyCount
        = [countMatchesSpec [⟨"*", "rg1", "GET"⟩] "admin"]) := by decide

/-- C4 amended: the bulk-derived policy count of every output record equals
the number of bulk records whose discriminator field is exactly
(case-sensitively) equal to that record's key — wildcard records receive no
special treatment and match only the key that is literally `"*"`. -/
theorem c4_exact_match_count
    (ps : List RBACPolicy) (fetch : String → ApiResult (List String))
    (arrival arrG : List (String × Nat)) (roles groups : List String)
    (hA : arrival.Perm (roles.map (fun k => (k, roleUserCount fetch k))))
    (hG : arrG.Perm (groups.map (fun k => (k, rgEndpointCount fetch k)))) :
    (∀ i : Nat,
      ((getRoleInfo (.ok ps) arrival roles)[i]?).map RoleInfo.PolicyCount
        = (roles[i]?).map (fun r => ps.countP (fun p => decide (p.Role = r))))
    ∧ (∀ i : Nat,
      ((getResourceGroupInfo (.ok ps) arrG groups)[i]?).map
          ResourceGroupInfo.PolicyCount
        = (groups[i]?).map
            (fun g => ps.countP (fun p => decide (p.ResourceGroup = g)))) := by
  constructor
  · intro i
    rw [getRoleInfo_closed ps fetch arrival roles hA, List.getElem?_map,
      Option.map_map]
    rfl
  · intro i
    rw [getResourceGroupInfo_closed ps fetch arrG groups hG,
      List.getElem?_map, Option.map_map]
    rfl

/-- Witness for the amended C4: one exact-match policy and one wildcard
policy; the key `"admin"` counts only the exact match. -/
theorem c4_exact_match_count_witness :
    ((getRoleInfo (.ok [⟨"admin", "rg1", "GET"⟩, ⟨"*", "rg1", "GET"⟩])
        [("admin", 0)] ["admin"])[0]?).map RoleInfo.PolicyCount
      = ((["admin"])[0]?).map
          (fun r => ([⟨"admin", "rg1", "GET"⟩,
            (⟨"*", "rg1", "GET"⟩ : RBACPolicy)]).countP
              (fun p => decide (p.Role = r))) :=
  (c4_exact_match_count [⟨"admin", "rg1", "GET"⟩, ⟨"*", "rg1", "GET"⟩]
    (fun _ => .httpErr 404) [("admin", 0)] [] ["admin"] []
    (by decide) (by decide)).1 0

/-- C7 fails on the code: with an empty key sequence `getRoleInfo` does
return the empty sequence, but it still issues the bulk fetch — the call
list is `[bulk]`, not empty. -/
theorem c7_empty_keys_counterexample :
    getRoleInfo (.ok []) [] [] = []
    ∧ getRoleInfoCalls (.ok []) [] = [RemoteCall.bulk]
    ∧ getRoleInfoCalls (.ok []) [] ≠ [] := by decide

/-- C7 amended: an empty key sequence yields the empty output sequence with
no per-key calls; `getUsersByIds` returns immediately and issues no remote
calls at all, while `getRoleInfo` still issues exactly the one bulk fetch
(whatever its outcome) and nothing else. -/
theorem c7_empty_keys_behaviour
    (bulk : ApiResult (List RBACPolicy)) (arrival : List (String × Nat))
    (ufetch : String → ApiResult User) (uarr : List Nat) :
    getRoleInfo bulk arrival [] = []
    ∧ getUsersByIds ufetch uarr [] = .ok []
    ∧ getUsersByIdsCalls [] = []
    ∧ getRoleInfoCalls bulk [] = [RemoteCall.bulk] := by
  refine ⟨?_, rfl, rfl, ?_⟩
  · cases bulk <;> rfl
  · cases bulk <;> rfl

/-- C8 fails on the code: a 401 on the bulk call of `getRoleInfo` does not
fail the batch — the batch completes and is degraded to zero-valued slots
exactly like any other failure. -/
theorem c8_auth_failure_counterexample :
    getRoleInfo (.httpErr 401) [] ["a"] = [⟨"a", 0, 0⟩]
    ∧ (getRoleInfo (.httpErr 401) [] ["a"]).length = 1 := by decide

/-- C8 amended: a 401/403 is fatal only on the code paths that go through
`handleResponse` — each per-key call of `getUsersByIds` terminates the
whole process on an auth failure — while `getRoleInfo` treats an auth
failure on its bulk call like any other failure, degrading every slot to
zero counts instead of failing. -/
theorem c8_auth_failure_policy
    (s : Nat) (hs : s = 401 ∨ s = 403)
    (arrival : List (String × Nat)) (roles : List String)
    (ufetch : String → ApiResult User) (uarr : List Nat) (ids : List String)
    (id : String) (hid : id ∈ ids) (hauth : ufetch id = .httpErr s) :
    handleResponse none (some s) = .fatal
    ∧ getRoleInfo (.httpErr s) arrival roles
        = roles.map (fun r => ⟨r, 0, 0⟩)
    ∧ getUsersByIds ufetch uarr ids = .error () := by
  refine ⟨?_, rfl, ?_⟩
  · unfold handleResponse
    rcases hs with h | h <;> subst h <;> decide
  · apply getUsersByIds_fail ufetch uarr ids id hid
    rw [hauth]
    simp [ApiResult.isOk]

/-- Witness for the amended C8 at status 401. -/
theorem c8_auth_failure_policy_witness :
    handleResponse none (some 401) = .fatal
    ∧ getRoleInfo (.httpErr 401) [] ["a"] = [⟨"a", 0, 0⟩]
    ∧ getUsersByIds (fun _ => .httpErr 401) [0] ["u1"] = .error () := by
  have h := c8_auth_failure_policy 401 (Or.inl rfl) [] ["a"]
    (fun _ => .httpErr 401) [0] ["u1"] "u1" (by decide) rfl
  exact ⟨h.1, h.2.1, h.2.2⟩

/-- C9 fails on the code: in the event trace of `getRoleInfo` the per-key
task for `"a"` is issued after the bulk call has completed, not before —
the bulk fetch is a synchronous call and the fan-out is blocked on it, so
the two phases do not overlap. -/
theorem c9_no_overlap_counterexample :
    getRoleInfoEvents (.ok []) ["a"]
      = [Ev.bulkIssued, Ev.bulkCompleted, Ev.perKeyIssued "a"]
    ∧ ¬ (List.indexOf (Ev.perKeyIssued "a") (getRoleInfoEvents (.ok []) ["a"])
        < List.indexOf Ev.bulkCompleted (getRoleInfoEvents (.ok []) ["a"])) := by
  decide

/-- C9 amended: the per-key tasks are started only after the bulk fetch has
completed (and not at all when it fails): in every `getRoleInfo` event
trace the bulk completion sits at position 1 and every per-key issue event
sits strictly after it. -/
theorem c9_per_key_after_bulk
    (bulk : ApiResult (List RBACPolicy)) (roles : List String)
    (k : String) (i : Nat)
    (h : (getRoleInfoEvents bulk roles)[i]? = some (Ev.perKeyIssued k)) :
    (getRoleInfoEvents bulk roles)[1]? = some Ev.bulkCompleted ∧ 2 ≤ i := by
  constructor
  · cases bulk <;> simp [getRoleInfoEvents]
  · match i with
    | 0 =>
        exact absurd h (by cases bulk <;> simp [getRoleInfoEvents])
    | 1 =>
        exact absurd h (by cases bulk <;> simp [getRoleInfoEvents])
    | n + 2 => omega

/-- Witness for the amended C9: the first per-key issue event sits at index
2, after the bulk completion at index 1. -/
theorem c9_per_key_after_bulk_witness :
    (getRoleInfoEvents (.ok []) ["a"])[1]? = some Ev.bulkCompleted
    ∧ 2 ≤ 2 :=
  c9_per_key_after_bulk (.ok []) ["a"] "a" 2 (by decide)

/-- C10: the basic-auth header is `"Basic "` followed by the standard
base64 encoding of `username ++ ":" ++ password`, and base64-decoding the
suffix after `"Basic "` round-trips to exactly `username ++ ":" ++
password` (byte 58 is `:`). -/
theorem c10_basic_auth_header (u p : List Nat)
    (hu : ∀ x ∈ u, x < 256) (hp : ∀ x ∈ p, x < 256) :
    (getAuthHeader u p).take 6 = "Basic ".toList
    ∧ b64DecodeChars ((getAuthHeader u p).drop 6) = some (u ++ 58 :: p) := by
  have hb : ∀ x ∈ u ++ 58 :: p, x < 256 := by
    intro x hx
    rcases List.mem_append.mp hx with h | h
    · exact hu x h
    · rcases List.mem_cons.mp h with h | h
      · omega
      · exact hp x h
  have h6 : ("Basic ".toList).length = 6 := rfl
  constructor
  · unfold getAuthHeader
    rw [← h6, List.take_left]
  · unfold getAuthHeader
    rw [← h6, List.drop_left]
    exact b64_roundtrip (u ++ 58 :: p) hb

/-- Witness for C10: `user:pass` encodes to `dXNlcjpwYXNz` and decodes
back. -/
theorem c10_basic_auth_header_witness :
    (getAuthHeader [117, 115, 101, 114] [112, 97, 115, 115]).take 6
      = "Basic ".toList
    ∧ b64DecodeChars
        ((getAuthHeader [117, 115, 101, 114] [112, 97, 115, 115]).drop 6)
      = some ([117, 115, 101, 114] ++ 58 :: [112, 97, 115, 115]) :=
  c10_basic_auth_header [117, 115, 101, 114] [112, 97, 115, 115]
    (by decide) (by decide)

